import Mathlib

/-!
Shallow embedding of the adaptive comparison engine of the AB testing site
(source files preference_analyzer.py, smart_pairing_system.py), together with
theorems checking the specification claims about it.

Conventions of the embedding:
- machine floats of the source become exact reals;
- the pandas DataFrame of preference rows becomes a list of Outcome records
  kept in row (CSV) order;
- the metadata dict becomes an association list from image name to the list
  of its tag keys; its key set is the catalog;
- Python dict update order is mirrored (the image_b write happens last);
- the random jitter of the pair prioritizer becomes an explicit function
  parameter.
-/

/-- One row of the preferences log (one completed pairwise comparison). -/
structure Outcome where
  timestamp : Nat
  image_a : String
  image_b : String
  chosen : String
  liked_features : List String
  disliked_features : List String
deriving DecidableEq

/-- Data-model invariant on an outcome: the two items differ and the chosen
item is one of the two. -/
def ValidOutcome (o : Outcome) : Prop :=
  o.image_a ≠ o.image_b ∧ (o.chosen = o.image_a ∨ o.chosen = o.image_b)

instance : DecidablePred ValidOutcome := fun o =>
  decidable_of_iff (o.image_a ≠ o.image_b ∧ (o.chosen = o.image_a ∨ o.chosen = o.image_b)) Iff.rfl

/-- One step of PreferenceAnalyzer.calculate_elo_rankings: process a single
preference row against the current ratings map. Outcomes naming an image
outside the catalog are skipped. The image_b write happens after the
image_a write, as in the Python dict assignments. -/
noncomputable def eloStep (k : ℝ) (catalog : List String) (r : String → ℝ) (o : Outcome) :
    String → ℝ :=
  if o.image_a ∈ catalog ∧ o.image_b ∈ catalog then
    let rating_a := r o.image_a
    let rating_b := r o.image_b
    let expected_a := 1 / (1 + (10 : ℝ) ^ ((rating_b - rating_a) / 400))
    let expected_b := 1 / (1 + (10 : ℝ) ^ ((rating_a - rating_b) / 400))
    let actual_a : ℝ := if o.chosen = o.image_a then 1 else 0
    let actual_b : ℝ := if o.chosen = o.image_a then 0 else 1
    fun name =>
      if name = o.image_b then rating_b + k * (actual_b - expected_b)
      else if name = o.image_a then rating_a + k * (actual_a - expected_a)
      else r name
  else r

/-- PreferenceAnalyzer.calculate_elo_rankings, rating part: every image starts
at the initial rating and the preference rows are folded in row order. -/
noncomputable def calculate_elo_rankings (catalog : List String) (prefs : List Outcome)
    (k init : ℝ) : String → ℝ :=
  prefs.foldl (eloStep k catalog) (fun _ => init)

/-- Modelled from the claim wording (standard Elo, written independently of
the code): expected score for A is 1 / (1 + 10 ^ ((rating_B - rating_A)/400)),
the actual score of a side is 1 exactly when that side was chosen, and the
update of B is literally symmetric to the update of A. Unknown items are
skipped. -/
noncomputable def specEloUpdate (k : ℝ) (catalog : List String) (r : String → ℝ) (o : Outcome) :
    String → ℝ :=
  if o.image_a ∈ catalog ∧ o.image_b ∈ catalog then
    fun name =>
      if name = o.image_b then
        r o.image_b + k * ((if o.chosen = o.image_b then (1 : ℝ) else 0)
          - 1 / (1 + (10 : ℝ) ^ ((r o.image_a - r o.image_b) / 400)))
      else if name = o.image_a then
        r o.image_a + k * ((if o.chosen = o.image_a then (1 : ℝ) else 0)
          - 1 / (1 + (10 : ℝ) ^ ((r o.image_b - r o.image_a) / 400)))
      else r name
  else r

/-- The spec-side full-history fold: baseline 1500 for every item, standard
Elo update with K = 32 folded over the outcomes. -/
noncomputable def spec_calculate_ratings (catalog : List String) (prefs : List Outcome) :
    String → ℝ :=
  prefs.foldl (specEloUpdate 32 catalog) (fun _ => 1500)

lemma expected_sum (x : ℝ) :
    1 / (1 + (10 : ℝ) ^ x) + 1 / (1 + (10 : ℝ) ^ (-x)) = 1 := by
  have hx : (0 : ℝ) < (10 : ℝ) ^ x := Real.rpow_pos_of_pos (by norm_num) x
  rw [Real.rpow_neg (by norm_num : (0:ℝ) ≤ 10)]
  have h1 : (1 : ℝ) + (10 : ℝ) ^ x ≠ 0 := by positivity
  have h2 : (10 : ℝ) ^ x ≠ 0 := ne_of_gt hx
  field_simp
  ring

lemma eloStep_eq_specEloUpdate (k : ℝ) (catalog : List String) (r : String → ℝ)
    (o : Outcome) (h : ValidOutcome o) :
    eloStep k catalog r o = specEloUpdate k catalog r o := by
  obtain ⟨hne, hch⟩ := h
  unfold eloStep specEloUpdate
  by_cases hmem : o.image_a ∈ catalog ∧ o.image_b ∈ catalog
  · simp only [if_pos hmem]
    funext name
    rcases hch with hca | hcb
    · have : ¬ o.chosen = o.image_b := by rw [hca]; exact hne
      simp [hca, this, hne]
    · have : ¬ o.chosen = o.image_a := by
        rw [hcb]; exact fun hba => hne hba.symm
      simp [hcb, this, Ne.symm hne]
  · simp only [if_neg hmem]

lemma foldl_congr_on {α β : Type} (f g : β → α → β) (P : α → Prop)
    (hfg : ∀ b a, P a → f b a = g b a) :
    ∀ (l : List α), (∀ a ∈ l, P a) → ∀ b, l.foldl f b = l.foldl g b := by
  intro l
  induction l with
  | nil => intro _ b; rfl
  | cons x xs ih =>
    intro hl b
    simp only [List.foldl_cons]
    rw [hfg b x (hl x (List.mem_cons_self x xs))]
    exact ih (fun a ha => hl a (List.mem_cons_of_mem x ha)) _

/-- C1: with the default parameters K = 32 and baseline 1500, and for outcome
rows satisfying the data-model invariant, calculate_elo_rankings computes
exactly the fold of the standard Elo update over the outcomes, skipping any
outcome that names an item outside the catalog. -/
theorem c1_elo_rankings_match_standard_elo_fold (catalog : List String)
    (prefs : List Outcome) (hval : ∀ o ∈ prefs, ValidOutcome o) :
    calculate_elo_rankings catalog prefs 32 1500 = spec_calculate_ratings catalog prefs := by
  unfold calculate_elo_rankings spec_calculate_ratings
  exact foldl_congr_on _ _ ValidOutcome
    (fun b a ha => eloStep_eq_specEloUpdate 32 catalog b a ha) prefs hval _

/-- C1 witness: a concrete three-image catalog with one valid in-catalog
outcome and one valid outcome naming an unknown image. -/
theorem c1_witness :
    (∀ o ∈ [Outcome.mk 1 "a" "b" "a" [] [], Outcome.mk 2 "a" "zz" "zz" [] []],
        ValidOutcome o) ∧
      calculate_elo_rankings ["a", "b", "c"]
          [Outcome.mk 1 "a" "b" "a" [] [], Outcome.mk 2 "a" "zz" "zz" [] []] 32 1500 =
        spec_calculate_ratings ["a", "b", "c"]
          [Outcome.mk 1 "a" "b" "a" [] [], Outcome.mk 2 "a" "zz" "zz" [] []] :=
  ⟨by decide, c1_elo_rankings_match_standard_elo_fold _ _ (by decide)⟩

/-- C5: processing a single outcome between two distinct catalog items leaves
the sum of their two ratings unchanged: the delta applied to A is exactly the
negative of the delta applied to B. -/
theorem c5_single_outcome_zero_sum (k : ℝ) (catalog : List String) (r : String → ℝ)
    (o : Outcome) (hne : o.image_a ≠ o.image_b)
    (ha : o.image_a ∈ catalog) (hb : o.image_b ∈ catalog) :
    eloStep k catalog r o o.image_a + eloStep k catalog r o o.image_b
      = r o.image_a + r o.image_b := by
  unfold eloStep
  simp only [if_pos (And.intro ha hb)]
  simp only [if_neg hne, if_pos rfl]
  have hsum : 1 / (1 + (10 : ℝ) ^ ((r o.image_b - r o.image_a) / 400))
      + 1 / (1 + (10 : ℝ) ^ ((r o.image_a - r o.image_b) / 400)) = 1 := by
    have hx : (r o.image_a - r o.image_b) / 400 = -((r o.image_b - r o.image_a) / 400) := by
      ring
    rw [hx]
    exact expected_sum _
  by_cases hc : o.chosen = o.image_a <;> simp [hc] <;> linear_combination (-k) * hsum

/-- C5 witness: concrete catalog, ratings function and outcome. -/
theorem c5_witness :
    (Outcome.mk 1 "a" "b" "a" [] []).image_a ≠ (Outcome.mk 1 "a" "b" "a" [] []).image_b ∧
      eloStep 32 ["a", "b"] (fun _ => 1500) (Outcome.mk 1 "a" "b" "a" [] []) "a"
          + eloStep 32 ["a", "b"] (fun _ => 1500) (Outcome.mk 1 "a" "b" "a" [] []) "b"
        = (fun _ => (1500 : ℝ)) "a" + (fun _ => (1500 : ℝ)) "b" :=
  ⟨by decide,
    c5_single_outcome_zero_sum 32 ["a", "b"] (fun _ => 1500)
      (Outcome.mk 1 "a" "b" "a" [] []) (by decide) (by decide) (by decide)⟩

/-- Ascending-timestamp order on outcomes. -/
def tsLE (o1 o2 : Outcome) : Prop := o1.timestamp ≤ o2.timestamp

instance : DecidableRel tsLE := fun o1 o2 => Nat.decLe o1.timestamp o2.timestamp

instance : IsTotal Outcome tsLE := ⟨fun a b => Nat.le_total a.timestamp b.timestamp⟩

instance : IsTrans Outcome tsLE := ⟨fun _ _ _ h1 h2 => Nat.le_trans h1 h2⟩

/-- The chronologically sorted permutation of the outcome log (stable sort,
ascending by the timestamp field). -/
def sortByTimestamp (prefs : List Outcome) : List Outcome :=
  List.insertionSort tsLE prefs

lemma eloStep_apply_other (k : ℝ) (catalog : List String) (r : String → ℝ)
    (o : Outcome) (name : String) (hna : name ≠ o.image_a) (hnb : name ≠ o.image_b) :
    eloStep k catalog r o name = r name := by
  unfold eloStep
  split
  · simp [hna, hnb]
  · rfl

lemma eloStep_apply_b (k : ℝ) (catalog : List String) (r : String → ℝ) (o : Outcome)
    (ha : o.image_a ∈ catalog) (hb : o.image_b ∈ catalog) :
    eloStep k catalog r o o.image_b
      = r o.image_b + k * ((if o.chosen = o.image_a then (0 : ℝ) else 1)
          - 1 / (1 + (10 : ℝ) ^ ((r o.image_a - r o.image_b) / 400))) := by
  unfold eloStep
  rw [if_pos (And.intro ha hb)]
  simp

lemma eloStep_apply_a (k : ℝ) (catalog : List String) (r : String → ℝ) (o : Outcome)
    (ha : o.image_a ∈ catalog) (hb : o.image_b ∈ catalog) (hne : o.image_a ≠ o.image_b) :
    eloStep k catalog r o o.image_a
      = r o.image_a + k * ((if o.chosen = o.image_a then (1 : ℝ) else 0)
          - 1 / (1 + (10 : ℝ) ^ ((r o.image_b - r o.image_a) / 400))) := by
  unfold eloStep
  rw [if_pos (And.intro ha hb)]
  simp [hne]

/-- C2 counterexample data: a log whose two rows are NOT in ascending
timestamp order (the timestamp-2 row comes first). -/
def lateOutcome : Outcome := ⟨2, "a", "b", "a", [], []⟩

/-- C2 counterexample data: the earlier (timestamp-1) row, stored second. -/
def earlyOutcome : Outcome := ⟨1, "a", "c", "a", [], []⟩

/-- C2 counterexample: calculate_elo_rankings folds the log in row order, so
on a log stored out of chronological order it does NOT return the ratings of
the chronologically sorted permutation: image b ends at 1484 under row order
but strictly above 1484 under sorted order. -/
theorem c2_counterexample_row_order_vs_sorted :
    calculate_elo_rankings ["a", "b", "c"] [lateOutcome, earlyOutcome] 32 1500 "b"
      ≠ calculate_elo_rankings ["a", "b", "c"]
          (sortByTimestamp [lateOutcome, earlyOutcome]) 32 1500 "b" := by
  have hsort : sortByTimestamp [lateOutcome, earlyOutcome] = [earlyOutcome, lateOutcome] := by
    decide
  rw [hsort]
  have hL : calculate_elo_rankings ["a", "b", "c"] [lateOutcome, earlyOutcome] 32 1500 "b"
      = 1484 := by
    unfold calculate_elo_rankings
    simp only [List.foldl_cons, List.foldl_nil]
    rw [eloStep_apply_other 32 _ _ earlyOutcome "b" (by decide) (by decide)]
    have hb : eloStep 32 ["a", "b", "c"] (fun _ => 1500) lateOutcome "b"
        = eloStep 32 ["a", "b", "c"] (fun _ => 1500) lateOutcome lateOutcome.image_b := rfl
    rw [hb, eloStep_apply_b 32 _ _ lateOutcome (by decide) (by decide)]
    norm_num [lateOutcome, Real.rpow_zero]
  rw [hL]
  have hra : eloStep 32 ["a", "b", "c"] (fun _ => 1500) earlyOutcome "a"
      = 1516 := by
    have ha : eloStep 32 ["a", "b", "c"] (fun _ => 1500) earlyOutcome "a"
        = eloStep 32 ["a", "b", "c"] (fun _ => 1500) earlyOutcome earlyOutcome.image_a := rfl
    rw [ha, eloStep_apply_a 32 _ _ earlyOutcome (by decide) (by decide) (by decide)]
    norm_num [earlyOutcome, Real.rpow_zero]
  have hrb : eloStep 32 ["a", "b", "c"] (fun _ => 1500) earlyOutcome "b" = 1500 := by
    rw [eloStep_apply_other 32 _ _ earlyOutcome "b" (by decide) (by decide)]
  have hR : calculate_elo_rankings ["a", "b", "c"] [earlyOutcome, lateOutcome] 32 1500 "b"
      = 1500 + 32 * (0 - 1 / (1 + (10 : ℝ) ^ ((16 : ℝ) / 400))) := by
    unfold calculate_elo_rankings
    simp only [List.foldl_cons, List.foldl_nil]
    have hb : eloStep 32 ["a", "b", "c"]
          (eloStep 32 ["a", "b", "c"] (fun _ => 1500) earlyOutcome) lateOutcome "b"
        = eloStep 32 ["a", "b", "c"]
          (eloStep 32 ["a", "b", "c"] (fun _ => 1500) earlyOutcome) lateOutcome
          lateOutcome.image_b := rfl
    rw [hb, eloStep_apply_b 32 _ _ lateOutcome (by decide) (by decide)]
    show (eloStep 32 ["a", "b", "c"] (fun _ => 1500) earlyOutcome) "b"
        + 32 * ((if lateOutcome.chosen = lateOutcome.image_a then (0:ℝ) else 1)
          - 1 / (1 + (10 : ℝ)
            ^ (((eloStep 32 ["a", "b", "c"] (fun _ => 1500) earlyOutcome) "a"
              - (eloStep 32 ["a", "b", "c"] (fun _ => 1500) earlyOutcome) "b") / 400))) = _
    rw [hra, hrb]
    norm_num [lateOutcome]
  rw [hR]
  have ht : 1 < (10 : ℝ) ^ ((16 : ℝ) / 400) := by
    rw [Real.one_lt_rpow_iff_of_pos (by norm_num : (0:ℝ) < 10)]
    exact Or.inl ⟨by norm_num, by norm_num⟩
  have hpos : (0 : ℝ) < 1 + (10 : ℝ) ^ ((16 : ℝ) / 400) := by linarith
  intro heq
  rw [div_eq_inv_mul] at heq
  have h2 : (1 + (10 : ℝ) ^ ((16 : ℝ) / 400)) * (1 + (10 : ℝ) ^ ((16 : ℝ) / 400))⁻¹ = 1 :=
    mul_inv_cancel₀ (ne_of_gt hpos)
  nlinarith [heq, h2, ht]

/-- C2 as amended: the fold is taken in row (log) order, so it agrees with
the fold over the chronologically sorted permutation exactly when the stored
log is already sorted ascending by timestamp (which the append-only
data-model invariant guarantees). -/
theorem c2_elo_fold_on_sorted_log (catalog : List String) (prefs : List Outcome)
    (k init : ℝ) (hsorted : List.Sorted tsLE prefs) :
    calculate_elo_rankings catalog prefs k init
      = calculate_elo_rankings catalog (sortByTimestamp prefs) k init := by
  unfold sortByTimestamp
  rw [List.Sorted.insertionSort_eq hsorted]

/-- C2 witness: a concrete two-row log in ascending timestamp order. -/
theorem c2_witness :
    List.Sorted tsLE [earlyOutcome, lateOutcome] ∧
      calculate_elo_rankings ["a", "b", "c"] [earlyOutcome, lateOutcome] 32 1500
        = calculate_elo_rankings ["a", "b", "c"]
            (sortByTimestamp [earlyOutcome, lateOutcome]) 32 1500 :=
  ⟨by decide, c2_elo_fold_on_sorted_log ["a", "b", "c"] [earlyOutcome, lateOutcome]
    32 1500 (by decide)⟩

/-- Number of preference rows in which the image participates
(SmartPairingSystem.calculate_image_stats / calculate_elo_rankings result). -/
def comparisonsOf (prefs : List Outcome) (name : String) : Nat :=
  (prefs.filter (fun o => o.image_a == name || o.image_b == name)).length

/-- Number of preference rows whose chosen field equals the image (wins are
counted by matching chosen alone, independent of participation). -/
def winsOf (prefs : List Outcome) (name : String) : Nat :=
  (prefs.filter (fun o => o.chosen == name)).length

/-- One row step of SmartPairingSystem.calculate_simple_elo: the opponent is
assumed to sit at rating 1500 (documented simplification of the source). -/
noncomputable def simpleEloStep (name : String) (current : ℝ) (o : Outcome) : ℝ :=
  if o.image_a = name then
    current + 32 * ((if o.chosen = name then (1 : ℝ) else 0)
      - 1 / (1 + (10 : ℝ) ^ ((1500 - current) / 400)))
  else if o.image_b = name then
    current + 32 * ((if o.chosen = name then (1 : ℝ) else 0)
      - 1 / (1 + (10 : ℝ) ^ ((1500 - current) / 400)))
  else current

/-- SmartPairingSystem.calculate_simple_elo: start at 1500 and fold the rows
mentioning the image. -/
noncomputable def calculate_simple_elo (prefs : List Outcome) (name : String) : ℝ :=
  prefs.foldl (simpleEloStep name) 1500

/-- Per-image statistics record of SmartPairingSystem.calculate_image_stats. -/
structure ImageStats where
  comparisons : Nat
  wins : Nat
  win_rate : ℝ
  elo_rating : ℝ
  needs_more_data : Prop
  likely_unpopular : Prop

/-- SmartPairingSystem.calculate_image_stats for one image. -/
noncomputable def calculate_image_stats (prefs : List Outcome) (name : String) : ImageStats :=
  { comparisons := comparisonsOf prefs name
    wins := winsOf prefs name
    win_rate := if 0 < comparisonsOf prefs name
      then (winsOf prefs name : ℝ) / (comparisonsOf prefs name : ℝ) else 0.5
    elo_rating := calculate_simple_elo prefs name
    needs_more_data := comparisonsOf prefs name < 5
    likely_unpopular := 8 ≤ comparisonsOf prefs name ∧ calculate_simple_elo prefs name < 1450 }

/-- The win_rate column of the PreferenceAnalyzer.calculate_elo_rankings
result row for one image: wins / comparisons when comparisons are positive,
otherwise 0. -/
noncomputable def elo_result_win_rate (prefs : List Outcome) (name : String) : ℝ :=
  if 0 < comparisonsOf prefs name
    then (winsOf prefs name : ℝ) / (comparisonsOf prefs name : ℝ) else 0

lemma simple_elo_of_no_history (prefs : List Outcome) (name : String)
    (h : ∀ o ∈ prefs, o.image_a ≠ name ∧ o.image_b ≠ name) :
    calculate_simple_elo prefs name = 1500 := by
  unfold calculate_simple_elo
  induction prefs with
  | nil => rfl
  | cons o rest ih =>
    have ho := h o (List.mem_cons_self o rest)
    simp only [List.foldl_cons]
    rw [show simpleEloStep name 1500 o = 1500 by
      unfold simpleEloStep; simp [ho.1, ho.2]]
    exact ih (fun a ha => h a (List.mem_cons_of_mem o ha))

lemma elo_rankings_of_no_history (catalog : List String) (prefs : List Outcome)
    (name : String) (k init : ℝ)
    (h : ∀ o ∈ prefs, o.image_a ≠ name ∧ o.image_b ≠ name) :
    calculate_elo_rankings catalog prefs k init name = init := by
  unfold calculate_elo_rankings
  suffices hgen : ∀ r : String → ℝ, (prefs.foldl (eloStep k catalog) r) name = r name by
    exact hgen _
  induction prefs with
  | nil => intro r; rfl
  | cons o rest ih =>
    intro r
    have ho := h o (List.mem_cons_self o rest)
    simp only [List.foldl_cons]
    rw [ih (fun a ha => h a (List.mem_cons_of_mem o ha))]
    exact eloStep_apply_other k catalog r o name (Ne.symm ho.1) (Ne.symm ho.2)

lemma comparisonsOf_of_no_history (prefs : List Outcome) (name : String)
    (h : ∀ o ∈ prefs, o.image_a ≠ name ∧ o.image_b ≠ name) :
    comparisonsOf prefs name = 0 := by
  unfold comparisonsOf
  rw [List.length_eq_zero]
  rw [List.filter_eq_nil_iff]
  intro o ho
  have := h o ho
  simp [this.1, this.2]

/-- C6 counterexample: for an image with zero comparisons, the win_rate
column of the calculate_elo_rankings result is 0, not the claimed 0.5 (the
0.5 convention holds only in calculate_image_stats). -/
theorem c6_counterexample_analyzer_win_rate_zero :
    comparisonsOf [] "img" = 0 ∧ elo_result_win_rate [] "img" ≠ 0.5 := by
  constructor
  · rfl
  · unfold elo_result_win_rate
    norm_num [comparisonsOf]

/-- C6 as amended: an item appearing in no outcome has rating exactly 1500
both in the full-history fold (default parameters) and in the simplified
single-item recomputation, and win_rate 0.5 in calculate_image_stats; the
calculate_elo_rankings result rows, however, report win_rate 0 for such an
item. -/
theorem c6_zero_history_item (catalog : List String) (prefs : List Outcome)
    (name : String) (h : ∀ o ∈ prefs, o.image_a ≠ name ∧ o.image_b ≠ name) :
    calculate_elo_rankings catalog prefs 32 1500 name = 1500
      ∧ calculate_simple_elo prefs name = 1500
      ∧ (calculate_image_stats prefs name).win_rate = 0.5
      ∧ elo_result_win_rate prefs name = 0 := by
  have hc := comparisonsOf_of_no_history prefs name h
  refine ⟨elo_rankings_of_no_history catalog prefs name 32 1500 h,
    simple_elo_of_no_history prefs name h, ?_, ?_⟩
  · unfold calculate_image_stats
    simp [hc]
  · unfold elo_result_win_rate
    simp [hc]

/-- C6 witness: image c has no history in a one-row log. -/
theorem c6_witness :
    (∀ o ∈ [Outcome.mk 1 "a" "b" "a" [] []], o.image_a ≠ "c" ∧ o.image_b ≠ "c") ∧
      (calculate_elo_rankings ["a", "b", "c"] [Outcome.mk 1 "a" "b" "a" [] []] 32 1500 "c" = 1500
        ∧ calculate_simple_elo [Outcome.mk 1 "a" "b" "a" [] []] "c" = 1500
        ∧ (calculate_image_stats [Outcome.mk 1 "a" "b" "a" [] []] "c").win_rate = 0.5
        ∧ elo_result_win_rate [Outcome.mk 1 "a" "b" "a" [] []] "c" = 0) :=
  ⟨by decide, c6_zero_history_item ["a", "b", "c"] _ "c" (by decide)⟩

/-- C10: under the Outcome invariant, wins never exceed comparisons, and the
win_rate reported by calculate_image_stats and by the calculate_elo_rankings
result rows lies in the closed interval from 0 to 1. -/
theorem c10_wins_le_comparisons_and_win_rate_bounds (prefs : List Outcome)
    (hval : ∀ o ∈ prefs, ValidOutcome o) (name : String) :
    winsOf prefs name ≤ comparisonsOf prefs name
      ∧ 0 ≤ (calculate_image_stats prefs name).win_rate
      ∧ (calculate_image_stats prefs name).win_rate ≤ 1
      ∧ 0 ≤ elo_result_win_rate prefs name
      ∧ elo_result_win_rate prefs name ≤ 1 := by
  have hwc : winsOf prefs name ≤ comparisonsOf prefs name := by
    unfold winsOf comparisonsOf
    rw [← List.countP_eq_length_filter, ← List.countP_eq_length_filter]
    apply List.countP_mono_left
    intro o ho hchosen
    have hv := hval o ho
    have hcn : o.chosen = name := by
      have := of_decide_eq_true hchosen
      simpa using this
    rcases hv.2 with hca | hcb
    · simp [← hcn, hca.symm]
    · simp [← hcn, hcb.symm]
  have hcast : (winsOf prefs name : ℝ) ≤ (comparisonsOf prefs name : ℝ) :=
    Nat.cast_le.mpr hwc
  have hw : (calculate_image_stats prefs name).win_rate
      = if 0 < comparisonsOf prefs name
          then (winsOf prefs name : ℝ) / (comparisonsOf prefs name : ℝ) else 0.5 := rfl
  have he : elo_result_win_rate prefs name
      = if 0 < comparisonsOf prefs name
          then (winsOf prefs name : ℝ) / (comparisonsOf prefs name : ℝ) else 0 := rfl
  have hmain : ∀ d : ℝ, 0 ≤ d → d ≤ 1 →
      0 ≤ (if 0 < comparisonsOf prefs name
        then (winsOf prefs name : ℝ) / (comparisonsOf prefs name : ℝ) else d)
      ∧ (if 0 < comparisonsOf prefs name
        then (winsOf prefs name : ℝ) / (comparisonsOf prefs name : ℝ) else d) ≤ 1 := by
    intro d hd0 hd1
    by_cases hpos : 0 < comparisonsOf prefs name
    · rw [if_pos hpos]
      exact ⟨div_nonneg (Nat.cast_nonneg _) (Nat.cast_nonneg _),
        (div_le_one (by exact_mod_cast hpos)).mpr hcast⟩
    · rw [if_neg hpos]
      exact ⟨hd0, hd1⟩
  refine ⟨hwc, ?_, ?_, ?_, ?_⟩
  · rw [hw]; exact (hmain 0.5 (by norm_num) (by norm_num)).1
  · rw [hw]; exact (hmain 0.5 (by norm_num) (by norm_num)).2
  · rw [he]; exact (hmain 0 le_rfl (by norm_num)).1
  · rw [he]; exact (hmain 0 le_rfl (by norm_num)).2

/-- C10 witness: a concrete two-row valid log. -/
theorem c10_witness :
    (∀ o ∈ [Outcome.mk 1 "a" "b" "a" [] [], Outcome.mk 2 "a" "b" "b" [] []],
        ValidOutcome o) ∧
      (winsOf [Outcome.mk 1 "a" "b" "a" [] [], Outcome.mk 2 "a" "b" "b" [] []] "a"
          ≤ comparisonsOf [Outcome.mk 1 "a" "b" "a" [] [], Outcome.mk 2 "a" "b" "b" [] []] "a"
        ∧ 0 ≤ (calculate_image_stats
            [Outcome.mk 1 "a" "b" "a" [] [], Outcome.mk 2 "a" "b" "b" [] []] "a").win_rate
        ∧ (calculate_image_stats
            [Outcome.mk 1 "a" "b" "a" [] [], Outcome.mk 2 "a" "b" "b" [] []] "a").win_rate ≤ 1
        ∧ 0 ≤ elo_result_win_rate
            [Outcome.mk 1 "a" "b" "a" [] [], Outcome.mk 2 "a" "b" "b" [] []] "a"
        ∧ elo_result_win_rate
            [Outcome.mk 1 "a" "b" "a" [] [], Outcome.mk 2 "a" "b" "b" [] []] "a" ≤ 1) :=
  ⟨by decide, c10_wins_le_comparisons_and_win_rate_bounds _ (by decide) "a"⟩

/-- The metadata catalog: association list from image name to the list of its
tag keys (the key set of the tags dict). -/
abbrev Metadata := List (String × List String)

/-- Tag keys of one image, empty when the image is absent
(metadata.get(name, dict()).get, with the tags dict reduced to its key list). -/
def tagsOf (metadata : Metadata) (name : String) : List String :=
  (List.lookup name metadata).getD []

/-- Whether this exact unordered pair already appears in the preference log
(the pair_shown test of SmartPairingSystem.get_prioritized_pairs). -/
def pairShownIn (prefs : List Outcome) (img_a img_b : String) : Bool :=
  decide (0 < (prefs.filter (fun o =>
    (o.image_a == img_a && o.image_b == img_b)
      || (o.image_a == img_b && o.image_b == img_a))).length)

open Classical in
/-- SmartPairingSystem.calculate_pair_priority with the random.uniform(0, 5)
draw passed in as the explicit jitterVal argument. -/
noncomputable def calculate_pair_priority (stats : String → ImageStats)
    (img_a img_b : String) (pair_shown : Bool) (jitterVal : ℝ) : ℝ :=
  (if (stats img_a).needs_more_data then (50 : ℝ) else 0)
    + (if (stats img_b).needs_more_data then (50 : ℝ) else 0)
    + (if pair_shown then (0 : ℝ) else 30)
    + max 0 (20 - |(stats img_a).elo_rating - (stats img_b).elo_rating| / 10)
    + (if 3 ≤ (((stats img_a).comparisons + (stats img_b).comparisons : ℕ) : ℝ) / 2
          ∧ (((stats img_a).comparisons + (stats img_b).comparisons : ℕ) : ℝ) / 2 ≤ 10
        then (10 : ℝ) else 0)
    + jitterVal

/-- One entry of the prioritized pair list. -/
structure PairEntry where
  image_a : String
  image_b : String
  priority_score : ℝ
  already_shown : Bool
  combined_comparisons : Nat

/-- All index-ordered pairs of a list (the nested i < j loops). -/
def pairsOf : List String → List (String × String)
  | [] => []
  | x :: xs => (xs.map (fun y => (x, y))) ++ pairsOf xs

open Classical in
/-- The images kept by the exclude_unpopular filter of
SmartPairingSystem.get_prioritized_pairs, in metadata key order. -/
noncomputable def availableImages (metadata : Metadata) (prefs : List Outcome)
    (exclude_unpopular : Bool) : List String :=
  (metadata.map Prod.fst).filter
    (fun name =>
      !(exclude_unpopular && decide (calculate_image_stats prefs name).likely_unpopular))

open Classical in
/-- The pair record built for one candidate pair. -/
noncomputable def pairEntryOf (prefs : List Outcome)
    (jitter : String → String → ℝ) (img_a img_b : String) : PairEntry :=
  { image_a := img_a
    image_b := img_b
    priority_score := calculate_pair_priority (calculate_image_stats prefs)
      img_a img_b (pairShownIn prefs img_a img_b) (jitter img_a img_b)
    already_shown := pairShownIn prefs img_a img_b
    combined_comparisons := (calculate_image_stats prefs img_a).comparisons
      + (calculate_image_stats prefs img_b).comparisons }

/-- Descending order on priority scores (the reverse=True sort key). -/
def scoreGE (p q : PairEntry) : Prop := q.priority_score ≤ p.priority_score

noncomputable instance : DecidableRel scoreGE := fun _ _ => Classical.dec _

instance : IsTotal PairEntry scoreGE :=
  ⟨fun a b => le_total b.priority_score a.priority_score⟩

instance : IsTrans PairEntry scoreGE := ⟨fun _ _ _ h1 h2 => le_trans h2 h1⟩

open Classical in
/-- SmartPairingSystem.get_prioritized_pairs: enumerate all pairs of the
available images, score them, sort descending by priority score (stable,
like the source sort) and keep the first n_pairs. -/
noncomputable def get_prioritized_pairs (metadata : Metadata) (prefs : List Outcome)
    (jitter : String → String → ℝ) (n_pairs : Nat) (exclude_unpopular : Bool) :
    List PairEntry :=
  if (availableImages metadata prefs exclude_unpopular).length < 2 then []
  else
    (List.insertionSort scoreGE
      ((pairsOf (availableImages metadata prefs exclude_unpopular)).map
        (fun pr => pairEntryOf prefs jitter pr.1 pr.2))).take
      n_pairs

/-- One entry of the pruning-candidate list. -/
structure PruneEntry where
  image : String
  elo_rating : ℝ
  win_rate : ℝ
  comparisons : Nat
  tags : List String

/-- The pruning record built for one image. -/
noncomputable def pruneEntryOf (metadata : Metadata) (prefs : List Outcome)
    (name : String) : PruneEntry :=
  { image := name
    elo_rating := (calculate_image_stats prefs name).elo_rating
    win_rate := (calculate_image_stats prefs name).win_rate
    comparisons := (calculate_image_stats prefs name).comparisons
    tags := tagsOf metadata name }

/-- Ascending order on the elo_rating of pruning candidates. -/
def eloLE (p q : PruneEntry) : Prop := p.elo_rating ≤ q.elo_rating

noncomputable instance : DecidableRel eloLE := fun _ _ => Classical.dec _

instance : IsTotal PruneEntry eloLE := ⟨fun a b => le_total a.elo_rating b.elo_rating⟩

instance : IsTrans PruneEntry eloLE := ⟨fun _ _ _ h1 h2 => le_trans h1 h2⟩

open Classical in
/-- SmartPairingSystem.get_images_for_pruning: the likely_unpopular images,
sorted ascending by elo_rating. -/
noncomputable def get_images_for_pruning (metadata : Metadata) (prefs : List Outcome) :
    List PruneEntry :=
  List.insertionSort eloLE
    (((metadata.map Prod.fst).filter
        (fun name => decide (calculate_image_stats prefs name).likely_unpopular)).map
      (pruneEntryOf metadata prefs))

/-- A failed preference-file read (the FileNotFoundError the source catches). -/
structure FileError where
  msg : String

/-- SmartPairingSystem.load_data on the preferences file: a read failure is
caught and yields the empty preference set. -/
def load_preferences (readResult : Except FileError (List Outcome)) : List Outcome :=
  match readResult with
  | Except.ok prefs => prefs
  | Except.error _ => []

/-- Whether both images of a pair carry the requested feature category. -/
def pairHasTag (metadata : Metadata) (t : String) (q : PairEntry) : Bool :=
  decide (t ∈ tagsOf metadata q.image_a) && decide (t ∈ tagsOf metadata q.image_b)

/-- The test-type filtering stage of get_smart_pair: with a real test type
(Python truthiness: neither empty nor general), keep only pairs where both
images carry the feature, unless that filter empties the list, in which case
keep the unfiltered list. -/
def applyTestTypeFilter (metadata : Metadata) (test_type : Option String)
    (pairs : List PairEntry) : List PairEntry :=
  match test_type with
  | none => pairs
  | some t =>
    if t = "" ∨ t = "general" then pairs
    else
      match pairs.filter (pairHasTag metadata t) with
      | [] => pairs
      | q :: qs => q :: qs

/-- get_smart_pair of smart_pairing_system.py: take the top 10 prioritized
pairs, apply the test-type filter stage, and return the first entry of the
resulting list, or none when there are no prioritized pairs. -/
noncomputable def get_smart_pair (metadata : Metadata)
    (readResult : Except FileError (List Outcome)) (jitter : String → String → ℝ)
    (test_type : Option String) : Option (String × String) :=
  match get_prioritized_pairs metadata (load_preferences readResult) jitter 10 true with
  | [] => none
  | p :: rest =>
    match applyTestTypeFilter metadata test_type (p :: rest) with
    | [] => none
    | q :: _ => some (q.image_a, q.image_b)

lemma pairShownIn_false_iff (prefs : List Outcome) (img_a img_b : String) :
    pairShownIn prefs img_a img_b = false
      ↔ ∀ o ∈ prefs,
          ¬((o.image_a = img_a ∧ o.image_b = img_b)
            ∨ (o.image_a = img_b ∧ o.image_b = img_a)) := by
  unfold pairShownIn
  rw [decide_eq_false_iff_not]
  simp only [not_lt, Nat.le_zero, List.length_eq_zero, List.filter_eq_nil_iff]
  constructor
  · intro h o ho
    have := h o ho
    simpa using this
  · intro h o ho
    have := h o ho
    simpa using this

open Classical in
/-- The additive priority formula exactly as the claim states it, with
indicator factors over the claim predicates and no jitter term. -/
noncomputable def spec_pair_score (prefs : List Outcome) (img_a img_b : String) : ℝ :=
  50 * (if (calculate_image_stats prefs img_a).needs_more_data then (1 : ℝ) else 0)
    + 50 * (if (calculate_image_stats prefs img_b).needs_more_data then (1 : ℝ) else 0)
    + 30 * (if ∀ o ∈ prefs,
          ¬((o.image_a = img_a ∧ o.image_b = img_b)
            ∨ (o.image_a = img_b ∧ o.image_b = img_a)) then (1 : ℝ) else 0)
    + max 0 (20 - |(calculate_image_stats prefs img_a).elo_rating
        - (calculate_image_stats prefs img_b).elo_rating| / 10)
    + 10 * (if 3 ≤ (((calculate_image_stats prefs img_a).comparisons
            + (calculate_image_stats prefs img_b).comparisons : ℕ) : ℝ) / 2
          ∧ (((calculate_image_stats prefs img_a).comparisons
            + (calculate_image_stats prefs img_b).comparisons : ℕ) : ℝ) / 2 ≤ 10
        then (1 : ℝ) else 0)

lemma get_prioritized_pairs_sorted (metadata : Metadata) (prefs : List Outcome)
    (jitter : String → String → ℝ) (n_pairs : Nat) (exclude_unpopular : Bool) :
    List.Sorted scoreGE (get_prioritized_pairs metadata prefs jitter n_pairs exclude_unpopular) := by
  unfold get_prioritized_pairs
  split
  · exact List.sorted_nil
  · exact List.Pairwise.sublist (List.take_sublist _ _)
      (List.sorted_insertionSort scoreGE _)

lemma get_prioritized_pairs_length_le (metadata : Metadata) (prefs : List Outcome)
    (jitter : String → String → ℝ) (n_pairs : Nat) (exclude_unpopular : Bool) :
    (get_prioritized_pairs metadata prefs jitter n_pairs exclude_unpopular).length ≤ n_pairs := by
  unfold get_prioritized_pairs
  split
  · simp
  · rw [List.length_take]
    exact min_le_left _ _

/-- C3: with the jitter fixed to 0, the pair priority equals exactly the
additive formula of the claim (exposure bonus per under-exposed item, novelty
bonus for pairs in no logged outcome, closeness bonus, sweet-spot bonus), and
get_prioritized_pairs returns at most n_pairs entries sorted descending by
total priority score. -/
theorem c3_pair_priority_formula_and_sorted_output (metadata : Metadata)
    (prefs : List Outcome) (jitter : String → String → ℝ) (n_pairs : Nat)
    (exclude_unpopular : Bool) (img_a img_b : String) :
    calculate_pair_priority (calculate_image_stats prefs) img_a img_b
        (pairShownIn prefs img_a img_b) 0 = spec_pair_score prefs img_a img_b
      ∧ List.Sorted scoreGE (get_prioritized_pairs metadata prefs jitter n_pairs exclude_unpopular)
      ∧ (get_prioritized_pairs metadata prefs jitter n_pairs exclude_unpopular).length
          ≤ n_pairs := by
  refine ⟨?_, get_prioritized_pairs_sorted metadata prefs jitter n_pairs exclude_unpopular,
    get_prioritized_pairs_length_le metadata prefs jitter n_pairs exclude_unpopular⟩
  cases hps : pairShownIn prefs img_a img_b with
  | false =>
    have h3 := (pairShownIn_false_iff prefs img_a img_b).mp hps
    simp only [calculate_pair_priority, spec_pair_score, hps, Bool.false_eq_true, if_false,
      if_pos h3]
    split_ifs <;> ring
  | true =>
    have h3 : ¬ ∀ o ∈ prefs,
        ¬((o.image_a = img_a ∧ o.image_b = img_b)
          ∨ (o.image_a = img_b ∧ o.image_b = img_a)) := by
      intro hc
      have := (pairShownIn_false_iff prefs img_a img_b).mpr hc
      rw [hps] at this
      exact Bool.false_ne_true this.symm
    simp only [calculate_pair_priority, spec_pair_score, hps, if_true, if_neg h3]
    split_ifs <;> ring

open Classical in
/-- C4: likely_unpopular holds exactly for items with at least 8 comparisons
and rating strictly below 1450, needs_more_data exactly below 5 comparisons,
and get_images_for_pruning returns exactly the likely_unpopular catalog
items, sorted ascending by rating, each entry being the pure derived record
of its item (nothing is deleted or altered). -/
theorem c4_pruning_flags_and_sorted_candidates (metadata : Metadata)
    (prefs : List Outcome) (name : String) :
    ((calculate_image_stats prefs name).likely_unpopular
        ↔ 8 ≤ comparisonsOf prefs name ∧ calculate_simple_elo prefs name < 1450)
      ∧ ((calculate_image_stats prefs name).needs_more_data
        ↔ comparisonsOf prefs name < 5)
      ∧ List.Sorted eloLE (get_images_for_pruning metadata prefs)
      ∧ (∀ e, e ∈ get_images_for_pruning metadata prefs
          ↔ e.image ∈ metadata.map Prod.fst
            ∧ (calculate_image_stats prefs e.image).likely_unpopular
            ∧ e = pruneEntryOf metadata prefs e.image) := by
  refine ⟨Iff.rfl, Iff.rfl, ?_, ?_⟩
  · unfold get_images_for_pruning
    exact List.sorted_insertionSort eloLE _
  · intro e
    constructor
    · intro he
      unfold get_images_for_pruning at he
      rw [List.Perm.mem_iff (List.perm_insertionSort eloLE _), List.mem_map] at he
      obtain ⟨n, hn, heq⟩ := he
      rw [List.mem_filter] at hn
      subst heq
      exact ⟨hn.1, of_decide_eq_true hn.2, rfl⟩
    · rintro ⟨hcat, hLU, heq⟩
      unfold get_images_for_pruning
      rw [List.Perm.mem_iff (List.perm_insertionSort eloLE _), List.mem_map]
      exact ⟨e.image, List.mem_filter.mpr ⟨hcat, decide_eq_true hLU⟩, heq.symm⟩


lemma mem_pairsOf {l : List String} {a b : String} (h : (a, b) ∈ pairsOf l) :
    a ∈ l ∧ b ∈ l := by
  induction l with
  | nil => simp [pairsOf] at h
  | cons x xs ih =>
    simp only [pairsOf, List.mem_append, List.mem_map] at h
    rcases h with ⟨y, hy, heq⟩ | h
    · obtain ⟨rfl, rfl⟩ : x = a ∧ y = b := by
        refine ⟨congrArg Prod.fst heq, congrArg Prod.snd heq⟩
      exact ⟨List.mem_cons_self _ _, List.mem_cons_of_mem _ hy⟩
    · obtain ⟨ha, hb⟩ := ih h
      exact ⟨List.mem_cons_of_mem _ ha, List.mem_cons_of_mem _ hb⟩

lemma pairsOf_head_mem (x y : String) (rest : List String) :
    (x, y) ∈ pairsOf (x :: y :: rest) := by
  simp [pairsOf]

lemma get_prioritized_pairs_mem_available (metadata : Metadata) (prefs : List Outcome)
    (jitter : String → String → ℝ) (n_pairs : Nat) (exclude_unpopular : Bool)
    {p : PairEntry}
    (hp : p ∈ get_prioritized_pairs metadata prefs jitter n_pairs exclude_unpopular) :
    p.image_a ∈ availableImages metadata prefs exclude_unpopular
      ∧ p.image_b ∈ availableImages metadata prefs exclude_unpopular := by
  unfold get_prioritized_pairs at hp
  split at hp
  · simp at hp
  · have hp2 := List.mem_of_mem_take hp
    rw [List.Perm.mem_iff (List.perm_insertionSort scoreGE _), List.mem_map] at hp2
    obtain ⟨pr, hpr, heq⟩ := hp2
    obtain ⟨pa, pb⟩ := pr
    subst heq
    exact mem_pairsOf hpr

lemma get_prioritized_pairs_ne_nil (metadata : Metadata) (prefs : List Outcome)
    (jitter : String → String → ℝ) (n_pairs : Nat) (exclude_unpopular : Bool)
    (hn : 0 < n_pairs)
    (h2 : 2 ≤ (availableImages metadata prefs exclude_unpopular).length) :
    get_prioritized_pairs metadata prefs jitter n_pairs exclude_unpopular ≠ [] := by
  unfold get_prioritized_pairs
  rw [if_neg (by omega)]
  intro hnil
  rw [List.take_eq_nil_iff] at hnil
  rcases hnil with hn0 | hsortnil
  · omega
  · rcases hav : availableImages metadata prefs exclude_unpopular with _ | ⟨a1, _ | ⟨a2, rest⟩⟩
    · rw [hav] at h2; simp at h2
    · rw [hav] at h2; simp at h2
    · have hmem : pairEntryOf prefs jitter a1 a2
          ∈ (pairsOf (availableImages metadata prefs exclude_unpopular)).map
            (fun pr => pairEntryOf prefs jitter pr.1 pr.2) := by
        rw [List.mem_map]
        exact ⟨(a1, a2), by rw [hav]; exact pairsOf_head_mem a1 a2 rest, rfl⟩
      rw [← List.Perm.mem_iff (List.perm_insertionSort scoreGE _)] at hmem
      rw [hsortnil] at hmem
      exact List.not_mem_nil _ hmem

/-- C7: with a feature filter set (a real test type, neither empty nor
general) that matches no prioritized pair, get_smart_pair still serves the
top unfiltered prioritized pair, whose two images come from the unfiltered
eligible population, whenever that population has at least 2 items. -/
theorem c7_filter_miss_falls_back_to_unfiltered (metadata : Metadata)
    (readResult : Except FileError (List Outcome)) (jitter : String → String → ℝ)
    (t : String) (ht0 : t ≠ "") (ht1 : t ≠ "general")
    (h2 : 2 ≤ (availableImages metadata (load_preferences readResult) true).length)
    (hfil : (get_prioritized_pairs metadata (load_preferences readResult) jitter 10 true).filter
        (pairHasTag metadata t) = []) :
    ∃ p ∈ get_prioritized_pairs metadata (load_preferences readResult) jitter 10 true,
      get_smart_pair metadata readResult jitter (some t) = some (p.image_a, p.image_b)
        ∧ p.image_a ∈ availableImages metadata (load_preferences readResult) true
        ∧ p.image_b ∈ availableImages metadata (load_preferences readResult) true := by
  have hne := get_prioritized_pairs_ne_nil metadata (load_preferences readResult) jitter
    10 true (by norm_num) h2
  obtain ⟨p, rest, hpr⟩ := List.exists_cons_of_ne_nil hne
  have hpmem : p ∈ get_prioritized_pairs metadata (load_preferences readResult) jitter
      10 true := by
    rw [hpr]; exact List.mem_cons_self _ _
  have hmem := get_prioritized_pairs_mem_available metadata (load_preferences readResult)
    jitter 10 true hpmem
  refine ⟨p, hpmem, ?_, hmem.1, hmem.2⟩
  rw [hpr] at hfil
  have happ : applyTestTypeFilter metadata (some t) (p :: rest) = p :: rest := by
    simp only [applyTestTypeFilter]
    rw [if_neg (not_or.mpr ⟨ht0, ht1⟩), hfil]
  unfold get_smart_pair
  simp only [hpr, happ]

open Classical in
/-- C7 witness: two untagged catalog images, an empty log and the filter
value x held by neither image. -/
theorem c7_witness :
    ("x" : String) ≠ "" ∧ ("x" : String) ≠ "general"
      ∧ 2 ≤ (availableImages [("a", []), ("b", [])]
          (load_preferences (Except.ok [])) true).length
      ∧ (get_prioritized_pairs [("a", []), ("b", [])]
            (load_preferences (Except.ok [])) (fun _ _ => 0) 10 true).filter
          (pairHasTag [("a", []), ("b", [])] "x") = []
      ∧ ∃ p ∈ get_prioritized_pairs [("a", []), ("b", [])]
            (load_preferences (Except.ok [])) (fun _ _ => 0) 10 true,
          get_smart_pair [("a", []), ("b", [])] (Except.ok []) (fun _ _ => 0) (some "x")
              = some (p.image_a, p.image_b)
            ∧ p.image_a ∈ availableImages [("a", []), ("b", [])]
                (load_preferences (Except.ok [])) true
            ∧ p.image_b ∈ availableImages [("a", []), ("b", [])]
                (load_preferences (Except.ok [])) true := by
  have htags : ∀ s, tagsOf [("a", []), ("b", [])] s = [] := by
    intro s
    unfold tagsOf
    by_cases h1 : s = "a"
    · subst h1; rfl
    · by_cases h2 : s = "b"
      · subst h2; rfl
      · have b1 : (s == "a") = false := beq_eq_false_iff_ne.mpr h1
        have b2 : (s == "b") = false := beq_eq_false_iff_ne.mpr h2
        simp [List.lookup, b1, b2]
  have hfil : ∀ q : PairEntry, pairHasTag [("a", []), ("b", [])] "x" q = false := by
    intro q
    unfold pairHasTag
    rw [htags, htags]
    simp
  have hLU : ∀ s, ¬ (calculate_image_stats [] s).likely_unpopular := by
    intro s h
    have h8 := h.1
    have hc : comparisonsOf [] s = 0 := rfl
    rw [hc] at h8
    exact absurd h8 (by norm_num)
  have havail : availableImages [("a", []), ("b", [])] (load_preferences (Except.ok [])) true
      = ["a", "b"] := by
    unfold availableImages
    rw [show load_preferences (Except.ok ([] : List Outcome)) = [] from rfl]
    simp only [List.map_cons, List.map_nil, List.filter_cons, List.filter_nil]
    rw [decide_eq_false (hLU "a"), decide_eq_false (hLU "b")]
    rfl
  have hfilnil : (get_prioritized_pairs [("a", []), ("b", [])]
        (load_preferences (Except.ok [])) (fun _ _ => 0) 10 true).filter
      (pairHasTag [("a", []), ("b", [])] "x") = [] := by
    rw [List.filter_eq_nil_iff]
    intro q _
    rw [hfil q]
    exact Bool.false_ne_true
  refine ⟨by decide, by decide, by rw [havail]; norm_num, hfilnil, ?_⟩
  exact c7_filter_miss_falls_back_to_unfiltered [("a", []), ("b", [])] (Except.ok [])
    (fun _ _ => 0) "x" (by decide) (by decide) (by rw [havail]; norm_num) hfilnil

lemma availableImages_length_le (metadata : Metadata) (prefs : List Outcome)
    (exclude_unpopular : Bool) :
    (availableImages metadata prefs exclude_unpopular).length ≤ metadata.length := by
  unfold availableImages
  calc (List.filter _ (metadata.map Prod.fst)).length
      ≤ (metadata.map Prod.fst).length := List.length_filter_le _ _
    _ = metadata.length := List.length_map _ _

/-- C8: a missing preferences file yields the empty outcome set, and over a
population with fewer than 2 eligible items get_prioritized_pairs returns
the empty list and get_smart_pair returns none (the no-pair signal); the
embedded operations are total, so no exception escapes. -/
theorem c8_missing_log_and_empty_population (metadata : Metadata)
    (readResult : Except FileError (List Outcome)) (jitter : String → String → ℝ)
    (n_pairs : Nat) (test_type : Option String) (err : FileError)
    (hlt : (availableImages metadata (load_preferences readResult) true).length < 2) :
    load_preferences (Except.error err) = []
      ∧ get_prioritized_pairs metadata (load_preferences readResult) jitter n_pairs true = []
      ∧ get_smart_pair metadata readResult jitter test_type = none := by
  refine ⟨rfl, ?_, ?_⟩
  · unfold get_prioritized_pairs
    rw [if_pos hlt]
  · have h10 : get_prioritized_pairs metadata (load_preferences readResult) jitter 10 true
        = [] := by
      unfold get_prioritized_pairs
      rw [if_pos hlt]
    unfold get_smart_pair
    simp only [h10]

/-- C8 witness: a one-image catalog and a missing preferences file. -/
theorem c8_witness :
    ((availableImages [("a", [])]
        (load_preferences (Except.error (FileError.mk "missing"))) true).length < 2)
      ∧ (load_preferences (Except.error (FileError.mk "missing")) = []
        ∧ get_prioritized_pairs [("a", [])]
            (load_preferences (Except.error (FileError.mk "missing")))
            (fun _ _ => 0) 5 true = []
        ∧ get_smart_pair [("a", [])] (Except.error (FileError.mk "missing"))
            (fun _ _ => 0) (some "x") = none) :=
  ⟨lt_of_le_of_lt (availableImages_length_le _ _ _) (by norm_num),
    c8_missing_log_and_empty_population [("a", [])] (Except.error (FileError.mk "missing"))
      (fun _ _ => 0) 5 (some "x") (FileError.mk "missing")
      (lt_of_le_of_lt (availableImages_length_le _ _ _) (by norm_num))⟩

/-- Total number of liked-feature mentions of f across outcomes (the likes
Counter of PreferenceAnalyzer.analyze_feature_sentiment). -/
def likesCount (prefs : List Outcome) (f : String) : Nat :=
  (prefs.map (fun o => o.liked_features.count f)).sum

/-- Total number of disliked-feature mentions of f across outcomes. -/
def dislikesCount (prefs : List Outcome) (f : String) : Nat :=
  (prefs.map (fun o => o.disliked_features.count f)).sum

/-- The key set of the two Counters: every feature mentioned at least once,
as a deduplicated list. -/
def mentionedFeatures (prefs : List Outcome) : List String :=
  ((prefs.foldr (fun (o : Outcome) acc => o.liked_features ++ acc) [])
    ++ prefs.foldr (fun (o : Outcome) acc => o.disliked_features ++ acc) []).dedup

/-- One row of the sentiment DataFrame. -/
structure SentimentRow where
  feature : String
  likes : Nat
  dislikes : Nat
  total_mentions : Nat
  sentiment_score : ℝ
  net_preference : Int

/-- Descending order on sentiment scores (the sort key of the result). -/
def sentimentGE (r1 r2 : SentimentRow) : Prop :=
  r2.sentiment_score ≤ r1.sentiment_score

noncomputable instance : DecidableRel sentimentGE := fun _ _ => Classical.dec _

instance : IsTotal SentimentRow sentimentGE :=
  ⟨fun a b => le_total b.sentiment_score a.sentiment_score⟩

instance : IsTrans SentimentRow sentimentGE := ⟨fun _ _ _ h1 h2 => le_trans h2 h1⟩

/-- The sentiment_data list of PreferenceAnalyzer.analyze_feature_sentiment:
one row per mentioned feature with positive total mentions, in key order,
before the DataFrame sort. -/
noncomputable def sentimentRows (prefs : List Outcome) : List SentimentRow :=
  (mentionedFeatures prefs).filterMap (fun f =>
    if 0 < likesCount prefs f + dislikesCount prefs f then
      some { feature := f
             likes := likesCount prefs f
             dislikes := dislikesCount prefs f
             total_mentions := likesCount prefs f + dislikesCount prefs f
             sentiment_score := ((likesCount prefs f : ℝ) - (dislikesCount prefs f : ℝ))
               / ((likesCount prefs f + dislikesCount prefs f : ℕ) : ℝ)
             net_preference := (likesCount prefs f : Int) - (dislikesCount prefs f : Int) }
    else none)

/-- The pandas KeyError raised when sort_values names a column the DataFrame
does not have. -/
structure KeyError where
  key : String

/-- PreferenceAnalyzer.analyze_feature_sentiment: the rows sorted descending
by sentiment score. When the row list is empty (a log without a single liked
or disliked mention), the DataFrame built from it has no sentiment_score
column and the sort_values call raises KeyError instead of returning. -/
noncomputable def analyze_feature_sentiment (prefs : List Outcome) :
    Except KeyError (List SentimentRow) :=
  match sentimentRows prefs with
  | [] => Except.error (KeyError.mk "sentiment_score")
  | r :: rest => Except.ok (List.insertionSort sentimentGE (r :: rest))

lemma likesCount_pos_iff (prefs : List Outcome) (f : String) :
    0 < likesCount prefs f ↔ ∃ o ∈ prefs, f ∈ o.liked_features := by
  unfold likesCount
  induction prefs with
  | nil => simp
  | cons o rest ih =>
    simp only [List.map_cons, List.sum_cons]
    constructor
    · intro h
      by_cases h1 : 0 < o.liked_features.count f
      · exact ⟨o, List.mem_cons_self _ _, List.count_pos_iff.mp h1⟩
      · have h2 : 0 < (rest.map (fun o => o.liked_features.count f)).sum := by omega
        obtain ⟨o2, ho2, hf⟩ := ih.mp h2
        exact ⟨o2, List.mem_cons_of_mem _ ho2, hf⟩
    · rintro ⟨o2, ho2, hf⟩
      rcases List.mem_cons.mp ho2 with rfl | ho2
      · have := List.count_pos_iff.mpr hf
        omega
      · have := ih.mpr ⟨o2, ho2, hf⟩
        omega

lemma dislikesCount_pos_iff (prefs : List Outcome) (f : String) :
    0 < dislikesCount prefs f ↔ ∃ o ∈ prefs, f ∈ o.disliked_features := by
  unfold dislikesCount
  induction prefs with
  | nil => simp
  | cons o rest ih =>
    simp only [List.map_cons, List.sum_cons]
    constructor
    · intro h
      by_cases h1 : 0 < o.disliked_features.count f
      · exact ⟨o, List.mem_cons_self _ _, List.count_pos_iff.mp h1⟩
      · have h2 : 0 < (rest.map (fun o => o.disliked_features.count f)).sum := by omega
        obtain ⟨o2, ho2, hf⟩ := ih.mp h2
        exact ⟨o2, List.mem_cons_of_mem _ ho2, hf⟩
    · rintro ⟨o2, ho2, hf⟩
      rcases List.mem_cons.mp ho2 with rfl | ho2
      · have := List.count_pos_iff.mpr hf
        omega
      · have := ih.mpr ⟨o2, ho2, hf⟩
        omega

lemma mem_foldr_append (prefs : List Outcome) (g : Outcome → List String) (f : String) :
    f ∈ prefs.foldr (fun o acc => g o ++ acc) [] ↔ ∃ o ∈ prefs, f ∈ g o := by
  induction prefs with
  | nil => simp
  | cons o rest ih =>
    simp only [List.foldr_cons, List.mem_append, ih]
    constructor
    · rintro (h | ⟨o2, ho2, hf⟩)
      · exact ⟨o, List.mem_cons_self _ _, h⟩
      · exact ⟨o2, List.mem_cons_of_mem _ ho2, hf⟩
    · rintro ⟨o2, ho2, hf⟩
      rcases List.mem_cons.mp ho2 with rfl | ho2
      · exact Or.inl hf
      · exact Or.inr ⟨o2, ho2, hf⟩

lemma mem_mentionedFeatures (prefs : List Outcome) (f : String) :
    f ∈ mentionedFeatures prefs ↔ 0 < likesCount prefs f + dislikesCount prefs f := by
  unfold mentionedFeatures
  rw [List.mem_dedup, List.mem_append,
    mem_foldr_append prefs (fun o => o.liked_features) f,
    mem_foldr_append prefs (fun o => o.disliked_features) f,
    ← likesCount_pos_iff, ← dislikesCount_pos_iff]
  omega

lemma likesCount_eq_countP (prefs : List Outcome) (f : String)
    (hnd : ∀ o ∈ prefs, o.liked_features.Nodup) :
    likesCount prefs f = prefs.countP (fun o => decide (f ∈ o.liked_features)) := by
  unfold likesCount
  induction prefs with
  | nil => rfl
  | cons o rest ih =>
    simp only [List.map_cons, List.sum_cons, List.countP_cons]
    have ho := hnd o (List.mem_cons_self o rest)
    have hrest := ih (fun a ha => hnd a (List.mem_cons_of_mem o ha))
    by_cases hf : f ∈ o.liked_features
    · rw [List.count_eq_one_of_mem ho hf, hrest, decide_eq_true hf]
      simp [Nat.add_comm]
    · rw [List.count_eq_zero_of_not_mem hf, hrest, decide_eq_false hf]
      simp

lemma dislikesCount_eq_countP (prefs : List Outcome) (f : String)
    (hnd : ∀ o ∈ prefs, o.disliked_features.Nodup) :
    dislikesCount prefs f = prefs.countP (fun o => decide (f ∈ o.disliked_features)) := by
  unfold dislikesCount
  induction prefs with
  | nil => rfl
  | cons o rest ih =>
    simp only [List.map_cons, List.sum_cons, List.countP_cons]
    have ho := hnd o (List.mem_cons_self o rest)
    have hrest := ih (fun a ha => hnd a (List.mem_cons_of_mem o ha))
    by_cases hf : f ∈ o.disliked_features
    · rw [List.count_eq_one_of_mem ho hf, hrest, decide_eq_true hf]
      simp [Nat.add_comm]
    · rw [List.count_eq_zero_of_not_mem hf, hrest, decide_eq_false hf]
      simp

/-- C9 counterexample: on a log whose outcomes carry no liked or disliked
tags, the aggregation raises the pandas KeyError at the sort_values call
(the empty DataFrame has no sentiment_score column) instead of returning a
(then empty) feature set. -/
theorem c9_counterexample_mention_free_log_raises :
    analyze_feature_sentiment [Outcome.mk 1 "a" "b" "a" [] []]
      = Except.error (KeyError.mk "sentiment_score") := rfl

/-- C9 as amended: whenever the sentiment aggregation returns (that is, the
log holds at least one liked or disliked mention; a mention-free log raises
KeyError from sort_values instead), the returned rows are exactly the
features with at least one like or dislike mention; per returned row, likes
and dislikes count the outcomes listing the feature (feature lists are tag
sets, hence duplicate-free), the sentiment score is exactly
(likes - dislikes) / (likes + dislikes), and it lies between -1 and 1. -/
theorem c9_feature_sentiment_aggregation (prefs : List Outcome)
    (hnd : ∀ o ∈ prefs, o.liked_features.Nodup ∧ o.disliked_features.Nodup)
    (rows : List SentimentRow)
    (hok : analyze_feature_sentiment prefs = Except.ok rows) :
    (∀ f, (∃ r ∈ rows, r.feature = f)
        ↔ 0 < likesCount prefs f + dislikesCount prefs f)
      ∧ ∀ r ∈ rows,
          r.likes = prefs.countP (fun o => decide (r.feature ∈ o.liked_features))
          ∧ r.dislikes = prefs.countP (fun o => decide (r.feature ∈ o.disliked_features))
          ∧ r.sentiment_score = ((r.likes : ℝ) - (r.dislikes : ℝ))
              / ((r.likes : ℝ) + (r.dislikes : ℝ))
          ∧ -1 ≤ r.sentiment_score ∧ r.sentiment_score ≤ 1 := by
  have hrows : rows = List.insertionSort sentimentGE (sentimentRows prefs) := by
    unfold analyze_feature_sentiment at hok
    rcases hsr : sentimentRows prefs with _ | ⟨r0, rest⟩
    · rw [hsr] at hok
      simp at hok
    · rw [hsr] at hok
      simp only [Except.ok.injEq] at hok
      rw [← hok]
  have hmem : ∀ r, r ∈ rows
      ↔ ∃ f ∈ mentionedFeatures prefs,
          (if 0 < likesCount prefs f + dislikesCount prefs f then
            some { feature := f
                   likes := likesCount prefs f
                   dislikes := dislikesCount prefs f
                   total_mentions := likesCount prefs f + dislikesCount prefs f
                   sentiment_score := ((likesCount prefs f : ℝ) - (dislikesCount prefs f : ℝ))
                     / ((likesCount prefs f + dislikesCount prefs f : ℕ) : ℝ)
                   net_preference := (likesCount prefs f : Int)
                     - (dislikesCount prefs f : Int) }
          else none) = some r := by
    intro r
    rw [hrows, List.Perm.mem_iff (List.perm_insertionSort sentimentGE _)]
    unfold sentimentRows
    rw [List.mem_filterMap]
  constructor
  · intro f
    constructor
    · rintro ⟨r, hr, rfl⟩
      obtain ⟨g, hg, heq⟩ := (hmem r).mp hr
      by_cases hpos : 0 < likesCount prefs g + dislikesCount prefs g
      · rw [if_pos hpos] at heq
        have hfeat := congrArg SentimentRow.feature (Option.some.inj heq)
        rw [← hfeat]
        exact hpos
      · rw [if_neg hpos] at heq
        exact Option.noConfusion heq
    · intro hpos
      refine ⟨_, (hmem _).mpr ⟨f, (mem_mentionedFeatures prefs f).mpr hpos, if_pos hpos⟩, rfl⟩
  · intro r hr
    obtain ⟨g, hg, heq⟩ := (hmem r).mp hr
    by_cases hpos : 0 < likesCount prefs g + dislikesCount prefs g
    · rw [if_pos hpos] at heq
      have hre := Option.some.inj heq
      subst hre
      have hlr : likesCount prefs g = prefs.countP (fun o => decide (g ∈ o.liked_features)) :=
        likesCount_eq_countP prefs g (fun a ha => (hnd a ha).1)
      have hdr : dislikesCount prefs g
          = prefs.countP (fun o => decide (g ∈ o.disliked_features)) :=
        dislikesCount_eq_countP prefs g (fun a ha => (hnd a ha).2)
      have hcast : ((likesCount prefs g + dislikesCount prefs g : ℕ) : ℝ)
          = (likesCount prefs g : ℝ) + (dislikesCount prefs g : ℝ) := by
        push_cast
        ring
      have hposR : (0 : ℝ) < (likesCount prefs g : ℝ) + (dislikesCount prefs g : ℝ) := by
        have : (0 : ℝ) < ((likesCount prefs g + dislikesCount prefs g : ℕ) : ℝ) := by
          exact_mod_cast hpos
        rw [hcast] at this
        exact this
      refine ⟨hlr, hdr, by rw [hcast], ?_, ?_⟩
      · rw [hcast]
        rw [le_div_iff₀ hposR]
        have hl0 : (0 : ℝ) ≤ (likesCount prefs g : ℝ) := Nat.cast_nonneg _
        linarith
      · rw [hcast]
        rw [div_le_one hposR]
        have hd0 : (0 : ℝ) ≤ (dislikesCount prefs g : ℝ) := Nat.cast_nonneg _
        linarith
    · rw [if_neg hpos] at heq
      exact Option.noConfusion heq

/-- C9 witness: a one-row log with one liked and one disliked tag, on which
the aggregation returns its sorted rows. -/
theorem c9_witness :
    (∀ o ∈ [Outcome.mk 1 "a" "b" "a" ["f1"] ["f2"]],
        o.liked_features.Nodup ∧ o.disliked_features.Nodup)
      ∧ analyze_feature_sentiment [Outcome.mk 1 "a" "b" "a" ["f1"] ["f2"]]
          = Except.ok (List.insertionSort sentimentGE
              (sentimentRows [Outcome.mk 1 "a" "b" "a" ["f1"] ["f2"]]))
      ∧ ((∀ f, (∃ r ∈ List.insertionSort sentimentGE
              (sentimentRows [Outcome.mk 1 "a" "b" "a" ["f1"] ["f2"]]), r.feature = f)
          ↔ 0 < likesCount [Outcome.mk 1 "a" "b" "a" ["f1"] ["f2"]] f
              + dislikesCount [Outcome.mk 1 "a" "b" "a" ["f1"] ["f2"]] f)
        ∧ ∀ r ∈ List.insertionSort sentimentGE
            (sentimentRows [Outcome.mk 1 "a" "b" "a" ["f1"] ["f2"]]),
            r.likes = List.countP (fun o => decide (r.feature ∈ o.liked_features))
                [Outcome.mk 1 "a" "b" "a" ["f1"] ["f2"]]
            ∧ r.dislikes = List.countP (fun o => decide (r.feature ∈ o.disliked_features))
                [Outcome.mk 1 "a" "b" "a" ["f1"] ["f2"]]
            ∧ r.sentiment_score = ((r.likes : ℝ) - (r.dislikes : ℝ))
                / ((r.likes : ℝ) + (r.dislikes : ℝ))
            ∧ -1 ≤ r.sentiment_score ∧ r.sentiment_score ≤ 1) :=
  ⟨by decide, rfl, c9_feature_sentiment_aggregation _ (by decide) _ rfl⟩
